import Mathlib

/-!
Verification of the forklift package loader (loader.go).

The repository is a thin classifier over the external library
golang.org/x/tools/go/packages.  We embed the data the classifier sees:
a result record (Package) with a declared name, source files and
diagnostic records, and the outcome of the external load call as an
Except value (error message, or the list of result records).  The three
operations LoadPackage, LoadTestPackage and LoadExternalTestPackage are
embedded as functions of that outcome; the selection loops and the
handle step are translated line by line from loader.go.
-/

/-- Diagnostic kinds of the external library (packages.ErrorKind):
UnknownError, ListError, ParseError, TypeError. -/
inductive ErrorKind where
  | unknownError
  | listError
  | parseError
  | typeError
deriving DecidableEq, Repr

/-- A diagnostic record (packages.Error): position, message, kind. -/
structure PackageError where
  Pos : String
  Msg : String
  Kind : ErrorKind
deriving DecidableEq, Repr

/-- A result record (packages.Package), restricted to the fields the
classifier reads: declared name, Go source files, diagnostics. -/
structure Package where
  Name : String
  GoFiles : List String
  Errors : List PackageError
deriving DecidableEq, Repr

/-- The errors the loader can return.  loadError wraps the external
load failure (loader.go line 58); errNotFound is ErrNotFound (line 62);
joined is errors.Join over the collected diagnostic strings (line 85). -/
inductive GoError where
  | loadError (msg : String)
  | errNotFound
  | joined (msgs : List String)
deriving DecidableEq, Repr

/-- The message of each error: fmt.Errorf for loadError, the ErrNotFound
text, and the newline join of errors.Join. -/
def GoError.message : GoError → String
  | .loadError m => "cannot load package: " ++ m
  | .errNotFound => "package not found"
  | .joined msgs => String.intercalate "\n" msgs

/-- A Go (pkg, err) return pair, or a panic (the default branch of the
switch in handle, loader.go line 82). -/
inductive GoResult where
  | ret (pkg : Option Package) (err : Option GoError)
  | panicked (k : ErrorKind)
deriving DecidableEq, Repr

/-- strings.HasSuffix s suff. -/
def hasSuffix (s suff : String) : Bool :=
  suff.data.isSuffixOf s.data

/-- The string built for one parse or type diagnostic in handle
(loader.go lines 75-79): the message, prefixed by the position and a
colon when the position is neither empty nor a dash. -/
def renderError (e : PackageError) : String :=
  (if e.Pos ≠ "" ∧ e.Pos ≠ "-" then e.Pos ++ ": " else "") ++ e.Msg

/-- Outcome of the diagnostics loop in handle (loader.go lines 69-83):
an early ErrNotFound return on a listing error, a panic on any other
unknown kind, or the collected parse and type diagnostic strings. -/
inductive ScanResult where
  | notFound
  | panicked (k : ErrorKind)
  | collected (msgs : List String)
deriving DecidableEq, Repr

/-- The diagnostics loop of handle (loader.go lines 69-83), with the
accumulated errs list made explicit. -/
def scanErrors : List PackageError → List String → ScanResult
  | [], acc => .collected acc
  | e :: rest, acc =>
    match e.Kind with
    | .listError => .notFound
    | .parseError => scanErrors rest (acc ++ [renderError e])
    | .typeError => scanErrors rest (acc ++ [renderError e])
    | .unknownError => .panicked .unknownError

/-- handle (loader.go lines 65-88): nil match is ErrNotFound; the
diagnostics loop may return ErrNotFound early or panic; a nonempty
collection is joined into one error; otherwise the record is returned. -/
def handle (p : Option Package) : GoResult :=
  match p with
  | none => .ret none (some .errNotFound)
  | some pkg =>
    match scanErrors pkg.Errors [] with
    | .notFound => .ret none (some .errNotFound)
    | .panicked k => .panicked k
    | .collected errs =>
      if errs.length > 0 then .ret none (some (.joined errs))
      else .ret (some pkg) none

/-- The selection loop of Loader.LoadPackage (loader.go lines 97-110):
skip records whose name ends in _test or one of whose GoFiles ends in
_test.go; take the first remaining record. -/
def matchNormal : List Package → Option Package
  | [] => none
  | p :: ps =>
    if hasSuffix p.Name "_test" then matchNormal ps
    else if p.GoFiles.any (fun f => hasSuffix f "_test.go") then matchNormal ps
    else some p

/-- The selection loop of Loader.LoadTestPackage (loader.go lines
121-133): skip records whose name ends in _test; take the first record
one of whose GoFiles ends in _test.go. -/
def matchTest : List Package → Option Package
  | [] => none
  | p :: ps =>
    if hasSuffix p.Name "_test" then matchTest ps
    else if p.GoFiles.any (fun f => hasSuffix f "_test.go") then some p
    else matchTest ps

/-- The selection loop of Loader.LoadExternalTestPackage (loader.go
lines 145-150): take the first record whose name ends in _test. -/
def matchExternalTest : List Package → Option Package
  | [] => none
  | p :: ps =>
    if hasSuffix p.Name "_test" then some p
    else matchExternalTest ps

/-- Loader.LoadPackage (loader.go lines 92-112) as a function of the
external load call outcome: a load failure is wrapped by loadError;
otherwise the normal-package selection loop runs and handle finishes. -/
def LoadPackage (loadOutcome : Except String (List Package)) : GoResult :=
  match loadOutcome with
  | .error err => .ret none (some (.loadError err))
  | .ok ps => handle (matchNormal ps)

/-- Loader.LoadTestPackage (loader.go lines 116-135) as a function of
the external load call outcome (the call is made with Tests true). -/
def LoadTestPackage (loadOutcome : Except String (List Package)) : GoResult :=
  match loadOutcome with
  | .error err => .ret none (some (.loadError err))
  | .ok ps => handle (matchTest ps)

/-- Loader.LoadExternalTestPackage (loader.go lines 139-152) as a
function of the external load call outcome (the call is made with
Tests true). -/
def LoadExternalTestPackage (loadOutcome : Except String (List Package)) : GoResult :=
  match loadOutcome with
  | .error err => .ret none (some (.loadError err))
  | .ok ps => handle (matchExternalTest ps)

/-- Spec predicate for a normal-package record: the name does not end
in _test and none of the source files end in _test.go. -/
def isNormalRecord (p : Package) : Bool :=
  !hasSuffix p.Name "_test" && !(p.GoFiles.any (fun f => hasSuffix f "_test.go"))

/-- Spec predicate for a test-package record: the name does not end in
_test and at least one source file ends in _test.go. -/
def isTestRecord (p : Package) : Bool :=
  !hasSuffix p.Name "_test" && p.GoFiles.any (fun f => hasSuffix f "_test.go")

/-- Spec predicate for an external-test record: the name ends in _test. -/
def isExternalTestRecord (p : Package) : Bool :=
  hasSuffix p.Name "_test"

/-- The three diagnostic kinds the handle switch accepts. -/
def knownKind (k : ErrorKind) : Bool :=
  match k with
  | .listError => true
  | .parseError => true
  | .typeError => true
  | .unknownError => false

/-! ### Helper lemmas -/

/-- The normal-package loop is first-match search for isNormalRecord. -/
theorem matchNormal_eq_find (ps : List Package) :
    matchNormal ps = ps.find? isNormalRecord := by
  induction ps with
  | nil => rfl
  | cons p ps ih =>
    cases h1 : hasSuffix p.Name "_test" with
    | true => simp [matchNormal, List.find?_cons, isNormalRecord, h1, ih]
    | false =>
      cases h2 : p.GoFiles.any (fun f => hasSuffix f "_test.go") with
      | true => simp [matchNormal, List.find?_cons, isNormalRecord, h1, h2, ih]
      | false => simp [matchNormal, List.find?_cons, isNormalRecord, h1, h2]

/-- The test-package loop is first-match search for isTestRecord. -/
theorem matchTest_eq_find (ps : List Package) :
    matchTest ps = ps.find? isTestRecord := by
  induction ps with
  | nil => rfl
  | cons p ps ih =>
    cases h1 : hasSuffix p.Name "_test" with
    | true => simp [matchTest, List.find?_cons, isTestRecord, h1, ih]
    | false =>
      cases h2 : p.GoFiles.any (fun f => hasSuffix f "_test.go") with
      | true => simp [matchTest, List.find?_cons, isTestRecord, h1, h2]
      | false => simp [matchTest, List.find?_cons, isTestRecord, h1, h2, ih]

/-- The external-test loop is first-match search for isExternalTestRecord. -/
theorem matchExternalTest_eq_find (ps : List Package) :
    matchExternalTest ps = ps.find? isExternalTestRecord := by
  induction ps with
  | nil => rfl
  | cons p ps ih =>
    cases h1 : hasSuffix p.Name "_test" with
    | true => simp [matchExternalTest, List.find?_cons, isExternalTestRecord, h1]
    | false => simp [matchExternalTest, List.find?_cons, isExternalTestRecord, h1, ih]

/-- When every diagnostic is a parse or type error, the scan collects
one rendered string per diagnostic, in order. -/
theorem scanErrors_content (errs : List PackageError) :
    ∀ acc, (∀ e ∈ errs, e.Kind = ErrorKind.parseError ∨ e.Kind = ErrorKind.typeError) →
      scanErrors errs acc = ScanResult.collected (acc ++ errs.map renderError) := by
  induction errs with
  | nil => intro acc _; simp [scanErrors]
  | cons e rest ih =>
    intro acc h
    rcases h e (by simp) with he | he <;>
      simp [scanErrors, he, ih _ (fun d hd => h d (by simp [hd])), List.append_assoc]

/-- When every diagnostic kind is known and some diagnostic is a
listing error, the scan reports not found. -/
theorem scanErrors_listError (errs : List PackageError) :
    ∀ acc, (∀ e ∈ errs, knownKind e.Kind = true) →
      (∃ e ∈ errs, e.Kind = ErrorKind.listError) →
      scanErrors errs acc = ScanResult.notFound := by
  induction errs with
  | nil => intro acc _ hex; simp at hex
  | cons e rest ih =>
    intro acc hall hex
    cases hke : e.Kind with
    | unknownError =>
      have hk := hall e (by simp)
      rw [hke] at hk
      simp [knownKind] at hk
    | listError => simp [scanErrors, hke]
    | parseError =>
      have hex' : ∃ d ∈ rest, d.Kind = ErrorKind.listError := by
        rcases hex with ⟨d, hd, hdl⟩
        rcases List.mem_cons.mp hd with rfl | hd'
        · rw [hke] at hdl; exact absurd hdl (by decide)
        · exact ⟨d, hd', hdl⟩
      simp [scanErrors, hke, ih _ (fun d hd => hall d (by simp [hd])) hex']
    | typeError =>
      have hex' : ∃ d ∈ rest, d.Kind = ErrorKind.listError := by
        rcases hex with ⟨d, hd, hdl⟩
        rcases List.mem_cons.mp hd with rfl | hd'
        · rw [hke] at hdl; exact absurd hdl (by decide)
        · exact ⟨d, hd', hdl⟩
      simp [scanErrors, hke, ih _ (fun d hd => hall d (by simp [hd])) hex']

/-- When every diagnostic kind is known, the scan never panics. -/
theorem scanErrors_no_panic (errs : List PackageError) :
    ∀ acc, (∀ e ∈ errs, knownKind e.Kind = true) →
      ∀ k, scanErrors errs acc ≠ ScanResult.panicked k := by
  induction errs with
  | nil => intro acc _ k h; simp [scanErrors] at h
  | cons e rest ih =>
    intro acc hall k
    cases hke : e.Kind with
    | unknownError =>
      have hk := hall e (by simp)
      rw [hke] at hk
      simp [knownKind] at hk
    | listError => simp [scanErrors, hke]
    | parseError =>
      simp only [scanErrors, hke]
      exact ih _ (fun d hd => hall d (by simp [hd])) k
    | typeError =>
      simp only [scanErrors, hke]
      exact ih _ (fun d hd => hall d (by simp [hd])) k

/-- A diagnostic of unknown kind that no listing error precedes makes
the scan panic. -/
theorem scanErrors_panics (pre : List PackageError) :
    ∀ e post acc, knownKind e.Kind = false →
      (∀ d ∈ pre, d.Kind ≠ ErrorKind.listError) →
      ∃ k, scanErrors (pre ++ e :: post) acc = ScanResult.panicked k := by
  induction pre with
  | nil =>
    intro e post acc hk _
    cases hke : e.Kind with
    | unknownError => exact ⟨.unknownError, by simp [scanErrors, hke]⟩
    | listError => rw [hke] at hk; simp [knownKind] at hk
    | parseError => rw [hke] at hk; simp [knownKind] at hk
    | typeError => rw [hke] at hk; simp [knownKind] at hk
  | cons d pre ih =>
    intro e post acc hk hpre
    have hd : d.Kind ≠ ErrorKind.listError := hpre d (by simp)
    cases hkd : d.Kind with
    | unknownError => exact ⟨.unknownError, by simp [scanErrors, hkd]⟩
    | listError => exact absurd hkd hd
    | parseError =>
      obtain ⟨k, hk2⟩ := ih e post (acc ++ [renderError d]) hk (fun x hx => hpre x (by simp [hx]))
      refine ⟨k, ?_⟩
      simp only [List.cons_append, scanErrors, hkd]
      exact hk2
    | typeError =>
      obtain ⟨k, hk2⟩ := ih e post (acc ++ [renderError d]) hk (fun x hx => hpre x (by simp [hx]))
      refine ⟨k, ?_⟩
      simp only [List.cons_append, scanErrors, hkd]
      exact hk2

/-- handle returns a record only when it was given exactly that record,
with a nil error. -/
theorem handle_ret_pkg (o : Option Package) (p : Package) (err : Option GoError) :
    handle o = GoResult.ret (some p) err → o = some p ∧ err = none := by
  intro h
  match o with
  | none => simp [handle] at h
  | some q =>
    simp only [handle] at h
    cases hs : scanErrors q.Errors [] with
    | notFound => rw [hs] at h; simp at h
    | panicked k => rw [hs] at h; simp at h
    | collected errs =>
      rw [hs] at h
      dsimp only at h
      cases hl : decide (errs.length > 0) with
      | true =>
        rw [if_pos (of_decide_eq_true hl)] at h
        simp at h
      | false =>
        rw [if_neg (of_decide_eq_false hl)] at h
        obtain ⟨h1, h2⟩ := GoResult.ret.inj h
        exact ⟨h1.symm ▸ rfl, h2.symm⟩

/-- Every (pkg, err) pair handle returns has exactly one component set. -/
theorem handle_exclusive (o : Option Package) (pkg : Option Package) (err : Option GoError) :
    handle o = GoResult.ret pkg err → (err = none ↔ pkg ≠ none) := by
  intro h
  match o with
  | none =>
    obtain ⟨h1, h2⟩ := GoResult.ret.inj h
    rw [← h1, ← h2]
    simp
  | some q =>
    simp only [handle] at h
    cases hs : scanErrors q.Errors [] with
    | notFound =>
      rw [hs] at h
      obtain ⟨h1, h2⟩ := GoResult.ret.inj h
      rw [← h1, ← h2]
      simp
    | panicked k => rw [hs] at h; simp at h
    | collected errs =>
      rw [hs] at h
      dsimp only at h
      cases hl : decide (errs.length > 0) with
      | true =>
        rw [if_pos (of_decide_eq_true hl)] at h
        obtain ⟨h1, h2⟩ := GoResult.ret.inj h
        rw [← h1, ← h2]
        simp
      | false =>
        rw [if_neg (of_decide_eq_false hl)] at h
        obtain ⟨h1, h2⟩ := GoResult.ret.inj h
        rw [← h1, ← h2]
        simp

/-! ### Concrete records used by witnesses and counterexamples -/

/-- A record with no test files and no diagnostics. -/
def plainRecord : Package :=
  { Name := "time", GoFiles := ["time.go"], Errors := [] }

/-- A record whose source files include a file ending in _test.go. -/
def inTestRecord : Package :=
  { Name := "time", GoFiles := ["time.go", "time_test.go"], Errors := [] }

/-- A record with one listing-error diagnostic. -/
def listErrRecord : Package :=
  { Name := "p", GoFiles := [], Errors := [{ Pos := "", Msg := "no Go files", Kind := ErrorKind.listError }] }

/-- A record with one positioned parse diagnostic. -/
def posDiagRecord : Package :=
  { Name := "p", GoFiles := ["a.go"], Errors := [{ Pos := "a.go:1:1", Msg := "boom", Kind := ErrorKind.parseError }] }

/-- A record with one diagnostic of unknown kind. -/
def unknownDiagRecord : Package :=
  { Name := "p", GoFiles := [], Errors := [{ Pos := "", Msg := "m", Kind := ErrorKind.unknownError }] }

/-! ### Claims -/

/-- C1: for every result list of the external load call, LoadPackage
selects as its match the first record whose name does not end in _test
and none of whose GoFiles end in _test.go; records failing either
condition are skipped. -/
theorem loadPackage_selects_first_normal (ps : List Package) :
    LoadPackage (Except.ok ps) = handle (ps.find? isNormalRecord) := by
  show handle (matchNormal ps) = _
  rw [matchNormal_eq_find]

/-- C2: for every result list of the test-mode load call,
LoadTestPackage selects the first record whose name does not end in
_test and at least one of whose GoFiles ends in _test.go; a
successfully returned record has such a file, and absence of any such
record yields not found. -/
theorem loadTestPackage_selects_first_test (ps : List Package) :
    LoadTestPackage (Except.ok ps) = handle (ps.find? isTestRecord)
    ∧ (∀ p, LoadTestPackage (Except.ok ps) = GoResult.ret (some p) none →
        p.GoFiles.any (fun f => hasSuffix f "_test.go") = true)
    ∧ (ps.find? isTestRecord = none →
        LoadTestPackage (Except.ok ps) = GoResult.ret none (some GoError.errNotFound)) := by
  have hbody : LoadTestPackage (Except.ok ps) = handle (matchTest ps) := rfl
  refine ⟨by rw [hbody, matchTest_eq_find], ?_, ?_⟩
  · intro p hp
    rw [hbody] at hp
    obtain ⟨ho, -⟩ := handle_ret_pkg _ _ _ hp
    rw [matchTest_eq_find] at ho
    have hrec := List.find?_some ho
    simp only [isTestRecord, Bool.and_eq_true] at hrec
    exact hrec.2
  · intro hnone
    rw [hbody, matchTest_eq_find, hnone]
    rfl

/-- C2 witness: on the one-record list with a test file the returned
record has a test file, and on the empty list the result is not found. -/
theorem loadTestPackage_selects_first_test_check :
    inTestRecord.GoFiles.any (fun f => hasSuffix f "_test.go") = true
    ∧ LoadTestPackage (Except.ok []) = GoResult.ret none (some GoError.errNotFound) :=
  ⟨(loadTestPackage_selects_first_test [inTestRecord]).2.1 inTestRecord (by decide),
   (loadTestPackage_selects_first_test []).2.2 rfl⟩

/-- C3: for every result list of the test-mode load call,
LoadExternalTestPackage selects the first record whose name ends in
_test, and when no record's name ends in _test it yields not found. -/
theorem loadExternalTestPackage_selects_first (ps : List Package) :
    LoadExternalTestPackage (Except.ok ps) = handle (ps.find? isExternalTestRecord)
    ∧ ((∀ p ∈ ps, isExternalTestRecord p = false) →
        LoadExternalTestPackage (Except.ok ps) = GoResult.ret none (some GoError.errNotFound)) := by
  have hbody : LoadExternalTestPackage (Except.ok ps) = handle (matchExternalTest ps) := rfl
  refine ⟨by rw [hbody, matchExternalTest_eq_find], ?_⟩
  intro hall
  have hnone : ps.find? isExternalTestRecord = none := by
    rw [List.find?_eq_none]
    intro p hp
    simp [hall p hp]
  rw [hbody, matchExternalTest_eq_find, hnone]
  rfl

/-- C3 witness: a list holding only a record whose name lacks the _test
suffix yields not found. -/
theorem loadExternalTestPackage_selects_first_check :
    LoadExternalTestPackage (Except.ok [plainRecord]) = GoResult.ret none (some GoError.errNotFound) :=
  (loadExternalTestPackage_selects_first [plainRecord]).2 (by decide)

/-- C4: for a matched record whose diagnostic kinds are all known, a
listing-error diagnostic makes the operation return ErrNotFound with a
nil record, and diagnostics of only parse and type kinds are collected
into a single joined error, distinct from ErrNotFound, with a nil
record. -/
theorem handle_diagnostics_dispatch (p : Package)
    (hall : ∀ e ∈ p.Errors, knownKind e.Kind = true) :
    ((∃ e ∈ p.Errors, e.Kind = ErrorKind.listError) →
        handle (some p) = GoResult.ret none (some GoError.errNotFound))
    ∧ (p.Errors ≠ [] →
        (∀ e ∈ p.Errors, e.Kind = ErrorKind.parseError ∨ e.Kind = ErrorKind.typeError) →
        handle (some p) = GoResult.ret none (some (GoError.joined (p.Errors.map renderError)))
        ∧ GoError.joined (p.Errors.map renderError) ≠ GoError.errNotFound) := by
  constructor
  · intro hex
    have h1 := scanErrors_listError p.Errors [] hall hex
    simp [handle, h1]
  · intro hne honly
    have hs := scanErrors_content p.Errors [] honly
    simp only [List.nil_append] at hs
    have hlen : (p.Errors.map renderError).length > 0 := by
      rw [List.length_map]
      exact List.length_pos.mpr hne
    constructor
    · simp only [handle, hs]
      rw [if_pos hlen]
    · exact fun h => GoError.noConfusion h

/-- C4 witness: a listing-error diagnostic yields not found, and a
positioned parse diagnostic yields the joined content error. -/
theorem handle_diagnostics_dispatch_check :
    handle (some listErrRecord) = GoResult.ret none (some GoError.errNotFound)
    ∧ handle (some posDiagRecord) = GoResult.ret none (some (GoError.joined (posDiagRecord.Errors.map renderError)))
    ∧ GoError.joined (posDiagRecord.Errors.map renderError) ≠ GoError.errNotFound :=
  ⟨(handle_diagnostics_dispatch listErrRecord (by decide)).1 (by decide),
   ((handle_diagnostics_dispatch posDiagRecord (by decide)).2 (by decide) (by decide)).1,
   ((handle_diagnostics_dispatch posDiagRecord (by decide)).2 (by decide) (by decide)).2⟩

/-- C5: when the selection loop of an operation matches no record, the
operation returns ErrNotFound and a nil record. -/
theorem noMatch_notFound (ps : List Package) :
    (matchNormal ps = none →
        LoadPackage (Except.ok ps) = GoResult.ret none (some GoError.errNotFound))
    ∧ (matchTest ps = none →
        LoadTestPackage (Except.ok ps) = GoResult.ret none (some GoError.errNotFound))
    ∧ (matchExternalTest ps = none →
        LoadExternalTestPackage (Except.ok ps) = GoResult.ret none (some GoError.errNotFound)) := by
  refine ⟨?_, ?_, ?_⟩ <;> intro h <;>
    simp [LoadPackage, LoadTestPackage, LoadExternalTestPackage, h, handle]

/-- C5 witness: the empty result list matches nothing in any of the
three operations, and each returns not found. -/
theorem noMatch_notFound_check :
    LoadPackage (Except.ok []) = GoResult.ret none (some GoError.errNotFound)
    ∧ LoadTestPackage (Except.ok []) = GoResult.ret none (some GoError.errNotFound)
    ∧ LoadExternalTestPackage (Except.ok []) = GoResult.ret none (some GoError.errNotFound) :=
  ⟨(noMatch_notFound []).1 rfl, (noMatch_notFound []).2.1 rfl, (noMatch_notFound []).2.2 rfl⟩

/-- C6: when the external load call fails, each operation returns a nil
record together with the wrapped error whose message has the prefix
"cannot load package", and that error is not ErrNotFound. -/
theorem loadFailure_wrapped (msg : String) :
    LoadPackage (Except.error msg) = GoResult.ret none (some (GoError.loadError msg))
    ∧ LoadTestPackage (Except.error msg) = GoResult.ret none (some (GoError.loadError msg))
    ∧ LoadExternalTestPackage (Except.error msg) = GoResult.ret none (some (GoError.loadError msg))
    ∧ (GoError.loadError msg).message = "cannot load package: " ++ msg
    ∧ GoError.loadError msg ≠ GoError.errNotFound :=
  ⟨rfl, rfl, rfl, rfl, fun h => GoError.noConfusion h⟩

/-- C7 counterexample: on a record with one positioned parse
diagnostic, the joined error message carries the position prefix, so it
is not the concatenation of the diagnostic Msg fields alone. -/
theorem joined_message_not_msg_concat :
    handle (some posDiagRecord) = GoResult.ret none (some (GoError.joined ["a.go:1:1: boom"]))
    ∧ (GoError.joined ["a.go:1:1: boom"]).message
        ≠ String.join (posDiagRecord.Errors.map PackageError.Msg) := by
  decide

/-- C7 amended: for a matched record with a nonempty list of parse and
type diagnostics only, the joined error message is the newline join of
one rendered entry per diagnostic, in diagnostic order, each entry
being the diagnostic message prefixed by its position when the position
is neither empty nor a dash; the result is not ErrNotFound. -/
theorem joined_message_renders_each (p : Package)
    (hne : p.Errors ≠ [])
    (honly : ∀ e ∈ p.Errors, e.Kind = ErrorKind.parseError ∨ e.Kind = ErrorKind.typeError) :
    handle (some p) = GoResult.ret none (some (GoError.joined (p.Errors.map renderError)))
    ∧ (GoError.joined (p.Errors.map renderError)).message
        = String.intercalate "\n" (p.Errors.map renderError)
    ∧ GoError.joined (p.Errors.map renderError) ≠ GoError.errNotFound := by
  have hs := scanErrors_content p.Errors [] honly
  simp only [List.nil_append] at hs
  have hlen : (p.Errors.map renderError).length > 0 := by
    rw [List.length_map]
    exact List.length_pos.mpr hne
  refine ⟨?_, rfl, fun h => GoError.noConfusion h⟩
  simp only [handle, hs]
  rw [if_pos hlen]

/-- C7 amended witness: the rendered entry of the positioned parse
diagnostic record. -/
theorem joined_message_renders_each_check :
    handle (some posDiagRecord)
        = GoResult.ret none (some (GoError.joined (posDiagRecord.Errors.map renderError)))
    ∧ (GoError.joined (posDiagRecord.Errors.map renderError)).message
        = String.intercalate "\n" (posDiagRecord.Errors.map renderError)
    ∧ GoError.joined (posDiagRecord.Errors.map renderError) ≠ GoError.errNotFound :=
  joined_message_renders_each posDiagRecord (by decide) (by decide)

/-- C8: a diagnostic of a kind other than the three known ones, when no
listing error precedes it, makes the handle step panic rather than
return; when every kind is among the three, the panic branch is
unreachable. -/
theorem handle_unknown_kind_panics (p : Package) :
    (∀ pre e post, p.Errors = pre ++ e :: post → knownKind e.Kind = false →
        (∀ d ∈ pre, d.Kind ≠ ErrorKind.listError) →
        ∃ k, handle (some p) = GoResult.panicked k)
    ∧ ((∀ e ∈ p.Errors, knownKind e.Kind = true) →
        ∀ k, handle (some p) ≠ GoResult.panicked k) := by
  constructor
  · intro pre e post hsplit hk hpre
    obtain ⟨k, hs⟩ := scanErrors_panics pre e post [] hk hpre
    rw [← hsplit] at hs
    exact ⟨k, by simp [handle, hs]⟩
  · intro hall k h
    cases hs : scanErrors p.Errors [] with
    | notFound => simp [handle, hs] at h
    | panicked k2 => exact scanErrors_no_panic p.Errors [] hall k2 hs
    | collected errs =>
      simp only [handle, hs] at h
      split at h <;> simp at h

/-- C8 witness: one unknown-kind diagnostic panics; a record whose only
diagnostic is a parse error never reaches the panic branch. -/
theorem handle_unknown_kind_panics_check :
    (∃ k, handle (some unknownDiagRecord) = GoResult.panicked k)
    ∧ (∀ k, handle (some posDiagRecord) ≠ GoResult.panicked k) :=
  ⟨(handle_unknown_kind_panics unknownDiagRecord).1 []
      { Pos := "", Msg := "m", Kind := ErrorKind.unknownError } [] rfl (by decide) (by simp),
   (handle_unknown_kind_panics posDiagRecord).2 (by decide)⟩

/-- C10: every call that returns does so with exactly one of the two
components set: a nil error comes with a record and a non-nil error
with a nil record, in each of the three operations. -/
theorem result_exactly_one (r : Except String (List Package)) :
    (∀ pkg err, LoadPackage r = GoResult.ret pkg err → (err = none ↔ pkg ≠ none))
    ∧ (∀ pkg err, LoadTestPackage r = GoResult.ret pkg err → (err = none ↔ pkg ≠ none))
    ∧ (∀ pkg err, LoadExternalTestPackage r = GoResult.ret pkg err → (err = none ↔ pkg ≠ none)) := by
  match r with
  | .error msg =>
    refine ⟨?_, ?_, ?_⟩ <;>
      · intro pkg err h
        obtain ⟨h1, h2⟩ := GoResult.ret.inj h
        rw [← h1, ← h2]
        simp
  | .ok ps =>
    exact ⟨fun pkg err h => handle_exclusive _ _ _ h,
      fun pkg err h => handle_exclusive _ _ _ h,
      fun pkg err h => handle_exclusive _ _ _ h⟩

/-- C10 witness: the empty result list returns a nil record and the
not-found error in each operation. -/
theorem result_exactly_one_check :
    (some GoError.errNotFound = none ↔ (none : Option Package) ≠ none)
    ∧ (some GoError.errNotFound = none ↔ (none : Option Package) ≠ none)
    ∧ (some GoError.errNotFound = none ↔ (none : Option Package) ≠ none) :=
  ⟨(result_exactly_one (Except.ok [])).1 none (some GoError.errNotFound) rfl,
   (result_exactly_one (Except.ok [])).2.1 none (some GoError.errNotFound) rfl,
   (result_exactly_one (Except.ok [])).2.2 none (some GoError.errNotFound) rfl⟩

/-! ### The default information bitmask (loader.go lines 154-165)

The LoadMode bit constants below are modelled from the external library
golang.org/x/tools/go/packages, whose exported constant block declares,
in order of increasing bits, NeedName, NeedFiles, NeedCompiledGoFiles,
NeedImports, NeedDeps, NeedExportFile, NeedTypes, NeedSyntax,
NeedTypesInfo, NeedTypesSizes, then three unexported bits, then
NeedModule, NeedEmbedFiles and NeedEmbedPatterns. -/

def NeedName : Nat := 1

def NeedFiles : Nat := 2

def NeedCompiledGoFiles : Nat := 4

def NeedImports : Nat := 8

def NeedDeps : Nat := 16

def NeedExportFile : Nat := 32

def NeedTypes : Nat := 64

def NeedSyntax : Nat := 128

def NeedTypesInfo : Nat := 256

def NeedTypesSizes : Nat := 512

def NeedModule : Nat := 8192

def NeedEmbedFiles : Nat := 16384

def NeedEmbedPatterns : Nat := 32768

/-- The package-level default mode (loader.go lines 154-165): the union
of the twelve flags the source lists. -/
def mode : Nat :=
  NeedCompiledGoFiles |||
  NeedDeps |||
  NeedEmbedFiles |||
  NeedEmbedPatterns |||
  NeedFiles |||
  NeedImports |||
  NeedModule |||
  NeedName |||
  NeedSyntax |||
  NeedTypes |||
  NeedTypesInfo |||
  NeedTypesSizes

/-- The union of every exported information flag the external library
defines. -/
def allExportedLoadModeFlags : Nat :=
  NeedName |||
  NeedFiles |||
  NeedCompiledGoFiles |||
  NeedImports |||
  NeedDeps |||
  NeedExportFile |||
  NeedTypes |||
  NeedSyntax |||
  NeedTypesInfo |||
  NeedTypesSizes |||
  NeedModule |||
  NeedEmbedFiles |||
  NeedEmbedPatterns

/-- C9 counterexample: the default mode is not the union of every
information flag the external library defines; the export-file flag is
absent from it. -/
theorem mode_not_all_flags :
    mode ≠ allExportedLoadModeFlags ∧ mode &&& NeedExportFile = 0 := by
  decide

/-- C9 amended: the default mode is the union of every exported
information flag of the external library except the export-file flag. -/
theorem mode_union_except_exportFile :
    mode ||| NeedExportFile = allExportedLoadModeFlags
    ∧ mode &&& NeedExportFile = 0 := by
  decide
